import Mathlib

/-
Shallow embedding of the satcom Arduino sketch (src/satcom.ino).

Modelling conventions:
  - C++ `int`/`long` values are modelled as unbounded `Int` (no command in the
    sketch relies on overflow), `float`/`double` values as `ℚ` (exact rational
    arithmetic in place of IEEE rounding), and Arduino `String`s as `List Char`.
  - C++ integer division and the float-to-int conversion truncate toward zero,
    so they are modelled with `Int.tdiv`.
  - The serial/LCD/tone side effects of one call are collected in a
    `List Emit`; the distinct message texts printed by the sketch are the
    constructors of `Msg`.
  - `millis()` is passed in as a parameter `now`; the `static` variable
    `lastUpdate` of `loop` is a state field.
-/

namespace Satcom

/-- Helper for `startsWithL`, recursing on the pattern (first argument). -/
def swGo : List Char → List Char → Bool
  | [], _ => true
  | _ :: _, [] => false
  | q :: ps, c :: cs => c == q && swGo ps cs

/-- Arduino `String.startsWith`: the second list is a leading segment of the first. -/
def startsWithL (l p : List Char) : Bool :=
  swGo p l

/-- Helper for `indexOfL`: first position of `c` at or after position `acc`. -/
def indexOfAux : List Char → Char → Int → Int
  | [], _, _ => -1
  | d :: ds, c, acc => if d = c then acc else indexOfAux ds c (acc + 1)

/-- Arduino `String.indexOf(char)`: index of the first occurrence, or -1. -/
def indexOfL (l : List Char) (c : Char) : Int :=
  indexOfAux l c 0

/-- Conversion of a C++ `int` to the `unsigned int` parameter type of
`String.substring` (the sketch passes `indexOf`'s `-1` there, which wraps to a
value at least the string length, so the exact width is immaterial). -/
def unsignedOf (i : Int) : ℕ :=
  (i % 4294967296).toNat

/-- Arduino `String.substring(left, right)`: swaps the bounds if out of order,
returns the empty string when `left` reaches the length, clamps `right` to the
length, and yields the characters in `[left, right)`. -/
def substr2 (l : List Char) (left right : ℕ) : List Char :=
  let lo := if left > right then right else left
  let hi := if left > right then left else right
  if lo ≥ l.length then [] else (l.take (min hi l.length)).drop lo

/-- Arduino one-argument `String.substring(left)`, i.e. `substring(left, length)`. -/
def substr1 (l : List Char) (left : ℕ) : List Char :=
  substr2 l left l.length

/-- C `isspace`: the six standard whitespace characters. -/
def isSpaceC (c : Char) : Bool :=
  c == ' ' || c == '\t' || c == '\n' || c == Char.ofNat 11 || c == Char.ofNat 12 || c == '\r'

/-- Accumulate the value of a maximal leading run of decimal digits. -/
def digitsAcc : List Char → ℕ → ℕ
  | [], acc => acc
  | c :: cs, acc => if c.isDigit then digitsAcc cs (acc * 10 + (c.toNat - 48)) else acc

/-- Split off a maximal leading run of decimal digits, returning its value,
its length and the rest of the input. -/
def digitsSplitAux : List Char → ℕ → ℕ → ℕ × ℕ × List Char
  | [], v, n => (v, n, [])
  | c :: cs, v, n =>
    if c.isDigit then digitsSplitAux cs (v * 10 + (c.toNat - 48)) (n + 1) else (v, n, c :: cs)

/-- Arduino `String.toInt` (C `atol`): skip whitespace, optional sign, then a
run of digits; a string with no leading digits yields 0. -/
def atolL (l : List Char) : Int :=
  let l1 := l.dropWhile isSpaceC
  match l1 with
  | [] => 0
  | c :: r =>
    if c = '-' then -(digitsAcc r 0 : ℕ)
    else if c = '+' then (digitsAcc r 0 : ℕ)
    else (digitsAcc (c :: r) 0 : ℕ)

/-- Arduino `String.toFloat` (C `atof`/`strtod` on decimal input), idealized
over ℚ: whitespace, optional sign, integer digits, optional fraction, optional
decimal exponent; no conversion yields 0. -/
def atofQ (l : List Char) : ℚ :=
  let l1 := l.dropWhile isSpaceC
  let sgn : ℚ × List Char :=
    match l1 with
    | c :: r => if c = '-' then (-1, r) else if c = '+' then (1, r) else (1, l1)
    | [] => (1, [])
  let ipart := digitsSplitAux sgn.2 0 0
  let fpart :=
    match ipart.2.2 with
    | c :: r => if c = '.' then digitsSplitAux r 0 0 else (0, 0, ipart.2.2)
    | [] => (0, 0, ([] : List Char))
  if ipart.2.1 + fpart.2.1 = 0 then 0
  else
    let mant : ℚ := sgn.1 * ((ipart.1 : ℚ) + (fpart.1 : ℚ) / (10 : ℚ) ^ fpart.2.1)
    let ex : Int :=
      match fpart.2.2 with
      | c :: r =>
        if c = 'e' ∨ c = 'E' then
          match r with
          | d :: r2 =>
            if d = '-' then
              (if (digitsSplitAux r2 0 0).2.1 = 0 then 0 else -((digitsSplitAux r2 0 0).1 : Int))
            else if d = '+' then
              (if (digitsSplitAux r2 0 0).2.1 = 0 then 0 else ((digitsSplitAux r2 0 0).1 : Int))
            else
              (if (digitsSplitAux (d :: r2) 0 0).2.1 = 0 then 0
               else ((digitsSplitAux (d :: r2) 0 0).1 : Int))
          | [] => 0
        else 0
      | [] => 0
    if 0 ≤ ex then mant * (10 : ℚ) ^ ex.toNat else mant / (10 : ℚ) ^ (-ex).toNat

/-- Predicate used to state claim C10: after whitespace and an optional sign,
the string begins with a decimal digit (`atolL` finds a number to parse). -/
def parsesAsNumberB (l : List Char) : Bool :=
  let l1 := l.dropWhile isSpaceC
  match l1 with
  | [] => false
  | c :: r =>
    if c = '-' ∨ c = '+' then
      match r with
      | d :: _ => d.isDigit
      | [] => false
    else c.isDigit

/-- Distinct serial/LCD message texts printed by the sketch. -/
inductive Msg where
  | infoFreqRangeUpdated
  | errInvalidRange
  | infoGainUpdated (g : ℚ)
  | errInvalidGain
  | infoLCDToggled
  | infoLowpassToggled
  | infoToneToggled
  | infoToneDisabled
  | infoEnterRef
  | infoCalibComplete
  | infoAutoCycleSet (enabled : Bool)
  | infoDisplayUpdated (i : Int)
  | errInvalidDisplayIndex
  | errUnknownCommand
  | errFailedReadADC
  | errADCRead
  deriving DecidableEq

/-- Observable side effects of one call: serial lines, LCD messages, the LCD
view rendered by `updateDisplay`, tone start/stop, and one plotter telemetry
line per successful cycle. -/
inductive Emit where
  | serial (m : Msg)
  | lcd (m : Msg)
  | lcdView (mode : Int)
  | toneOut (pin : Int) (freq : Int)
  | toneStop (pin : Int)
  | plotter (adc : Int) (voltage : ℚ) (freq : Int)
  deriving DecidableEq

/-- Process-wide mutable state of the sketch (its global variables plus the
`static unsigned long lastUpdate` of `loop`). -/
structure SatState where
  adcValue : Int
  voltage : ℚ
  voltage_mV : ℚ
  frequency : Int
  scaleFactor : ℚ
  lcdEnabled : Bool
  toneEnabled : Bool
  autoCycle : Bool
  lowPassEnabled : Bool
  frequencyMin : Int
  frequencyMax : Int
  currentDisplay : Int
  gainFactor : ℚ
  adcHistory : Fin 10 → Int
  historyIndex : Fin 10
  lastUpdate : ℕ

/-- Initial values of the globals (uninitialized C++ globals are
zero-initialized). -/
def initState : SatState where
  adcValue := 0
  voltage := 0
  voltage_mV := 0
  frequency := 0
  scaleFactor := 1
  lcdEnabled := true
  toneEnabled := true
  autoCycle := true
  lowPassEnabled := false
  frequencyMin := 50
  frequencyMax := 1400
  currentDisplay := 0
  gainFactor := 1
  adcHistory := fun _ => 0
  historyIndex := 0
  lastUpdate := 0

/-- The constant `numDisplays = 6`. -/
def numDisplays : Int := 6

/-- The constant `tonePin = 6`. -/
def tonePin : Int := 6

/-- Arduino `map(x, in_min, in_max, out_min, out_max)`:
`(x - in_min) * (out_max - out_min) / (in_max - in_min) + out_min` with C++
integer division (truncation toward zero). -/
def mapArduino (x inMin inMax outMin outMax : Int) : Int :=
  Int.tdiv ((x - inMin) * (outMax - outMin)) (inMax - inMin) + outMin

/-- C++ float-to-int conversion: truncation toward zero. -/
def truncToInt (q : ℚ) : Int :=
  Int.tdiv q.num (q.den : Int)

/-- The function `applyLowPassFilter`: store the sample at `historyIndex`,
advance the index modulo 10, and return the mean of the 10 slots. Returns the
filter output together with the updated history and index. -/
def applyLowPassFilter (x : Int) (hist : Fin 10 → Int) (idx : Fin 10) :
    ℚ × (Fin 10 → Int) × Fin 10 :=
  let h := Function.update hist idx x
  (((∑ j, h j : Int) : ℚ) / 10, h, idx + 1)

/-- The voltage computed each successful cycle (line 384 of the sketch):
`((adcValue / 255.0) * 3.3) * scaleFactor`. -/
def computeVoltage (adcValue : Int) (scaleFactor : ℚ) : ℚ :=
  ((adcValue : ℚ) / 255 * (33 / 10)) * scaleFactor

/-- Modelled from the spec (section 4.1): the spec's voltage formula
`volts = (sample / 255.0) * 3.3 * CalibrationScale * GainFactor`, stated for
comparison with `computeVoltage`. -/
def specVoltageFormula (sample : Int) (calibScale gain : ℚ) : ℚ :=
  (sample : ℚ) / 255 * (33 / 10) * calibScale * gain

/-- Modelled from the spec (section 4.1): the spec's calibration update
`CalibrationScale = referenceVoltage_mV / ((lastSample / 255.0) * 3300)`,
stated for comparison with the interpreter's `calibrate` branch. -/
def specCalibrationFormula (refMV : ℚ) (lastSample : Int) : ℚ :=
  refMV / (((lastSample : ℚ) / 255) * 3300)

/-- The first argument parsed by the `setRange` branch:
`input.substring(9, input.indexOf(",")).toInt()`. -/
def parsedRangeMin (input : List Char) : Int :=
  atolL (substr2 input 9 (unsignedOf (indexOfL input ',')))

/-- The second argument parsed by the `setRange` branch:
`input.substring(input.indexOf(",") + 1).toInt()`. -/
def parsedRangeMax (input : List Char) : Int :=
  atolL (substr1 input (unsignedOf (indexOfL input ',' + 1)))

/-- The argument parsed by the `setGain` branch: `input.substring(8).toFloat()`. -/
def parsedGain (input : List Char) : ℚ :=
  atofQ (substr1 input 8)

/-- The argument parsed by the `display` branch: `input.substring(7).toInt()`. -/
def parsedDisplayIndex (input : List Char) : Int :=
  atolL (substr1 input 7)

/-- The function `setGain`: accept a positive gain, reject otherwise, reporting
via the LCD in both cases. -/
def setGain (newGain : ℚ) (s : SatState) : SatState × List Emit :=
  if newGain > 0 then
    ({ s with gainFactor := newGain }, [Emit.lcd (Msg.infoGainUpdated newGain)])
  else
    (s, [Emit.lcd Msg.errInvalidGain])

/-- The function `processSerialInput`: dispatch on the command line. The
blocking `Serial.parseFloat()` of the `calibrate` branch is modelled by the
parameter `calibIn`. -/
def processSerialInput (input : List Char) (calibIn : ℚ) (s : SatState) :
    SatState × List Emit :=
  if startsWithL input ("setRange".toList) then
    if parsedRangeMin input > 0 ∧ parsedRangeMax input > parsedRangeMin input then
      ({ s with frequencyMin := parsedRangeMin input, frequencyMax := parsedRangeMax input },
       [Emit.serial Msg.infoFreqRangeUpdated])
    else
      (s, [Emit.serial Msg.errInvalidRange])
  else if startsWithL input ("setGain".toList) then
    setGain (parsedGain input) s
  else if input = ("toggleLCD".toList) then
    ({ s with lcdEnabled := !s.lcdEnabled }, [Emit.serial Msg.infoLCDToggled])
  else if input = ("toggleLowpass".toList) then
    ({ s with lowPassEnabled := !s.lowPassEnabled }, [Emit.serial Msg.infoLowpassToggled])
  else if input = ("toggleTone".toList) then
    if !s.toneEnabled then
      ({ s with toneEnabled := !s.toneEnabled },
       [Emit.toneOut tonePin s.frequency, Emit.serial Msg.infoToneToggled])
    else
      ({ s with toneEnabled := !s.toneEnabled },
       [Emit.toneStop tonePin, Emit.serial Msg.infoToneDisabled])
  else if input = ("calibrate".toList) then
    ({ s with scaleFactor := calibIn / (((s.adcValue : ℚ) / 255) * (33 / 10)) },
     [Emit.serial Msg.infoEnterRef, Emit.serial Msg.infoCalibComplete])
  else if input = ("autoCycle".toList) then
    ({ s with autoCycle := !s.autoCycle }, [Emit.serial (Msg.infoAutoCycleSet (!s.autoCycle))])
  else if startsWithL input ("display".toList) then
    if parsedDisplayIndex input ≥ 0 ∧ parsedDisplayIndex input < numDisplays then
      ({ s with autoCycle := false, currentDisplay := parsedDisplayIndex input },
       [Emit.serial (Msg.infoDisplayUpdated (parsedDisplayIndex input))])
    else
      (s, [Emit.serial Msg.errInvalidDisplayIndex])
  else
    (s, [Emit.serial Msg.errUnknownCommand])

/-- The function `updateDisplay`: render the current view when the LCD is
enabled, otherwise do nothing. -/
def updateDisplay (s : SatState) : List Emit :=
  if s.lcdEnabled then [Emit.lcdView s.currentDisplay] else []

/-- The body of `loop` after `checkSerial`: store the converter reading in
`adcValue`; on a non-negative reading run smoothing (when enabled), compute
voltage and frequency, drive the tone, advance the auto-cycled view, render and
emit telemetry; on a negative reading report the failure instead. -/
def acquirePhase (readResult : Int) (now : ℕ) (s0 : SatState) : SatState × List Emit :=
  let s1 := { s0 with adcValue := readResult }
  if s1.adcValue ≥ 0 then
    let s2 :=
      if s1.lowPassEnabled then
        let r := applyLowPassFilter s1.adcValue s1.adcHistory s1.historyIndex
        { s1 with adcValue := truncToInt r.1, adcHistory := r.2.1, historyIndex := r.2.2 }
      else s1
    let volts := computeVoltage s2.adcValue s2.scaleFactor
    let s3 := { s2 with
      voltage := volts
      voltage_mV := volts * 1000
      frequency := mapArduino s2.adcValue 0 255 s2.frequencyMin s2.frequencyMax }
    let toneEmits := if s3.toneEnabled then [Emit.toneOut tonePin s3.frequency] else []
    let s4 :=
      if s3.autoCycle ∧ now - s3.lastUpdate > 2000 then
        { s3 with currentDisplay := (s3.currentDisplay + 1) % numDisplays, lastUpdate := now }
      else s3
    (s4, toneEmits ++ updateDisplay s4 ++ [Emit.plotter s4.adcValue s4.voltage s4.frequency])
  else
    (s1, Emit.serial Msg.errFailedReadADC ::
      (if s1.lcdEnabled then [Emit.lcd Msg.errADCRead] else []))

/-- One full iteration of `loop`: drain at most one pending command line, then
run the acquisition pipeline. -/
def loop (serialLine : Option (List Char)) (calibIn : ℚ) (readResult : Int) (now : ℕ)
    (s : SatState) : SatState × List Emit :=
  match serialLine with
  | some line =>
    let r1 := processSerialInput line calibIn s
    let r2 := acquirePhase readResult now r1.1
    (r2.1, r1.2 ++ r2.2)
  | none => acquirePhase readResult now s

/-- Filter state transformer for iterating `applyLowPassFilter` on a constant
input stream: one cycle's write and index advance. -/
def lpStep (v : Int) (st : (Fin 10 → Int) × Fin 10) : (Fin 10 → Int) × Fin 10 :=
  ((applyLowPassFilter v st.1 st.2).2.1, (applyLowPassFilter v st.1 st.2).2.2)

/-- Filter state after `n` cycles of the constant input `v`. -/
def lpRun (v : Int) (n : ℕ) (st : (Fin 10 → Int) × Fin 10) : (Fin 10 → Int) × Fin 10 :=
  (lpStep v)^[n] st

end Satcom

namespace Satcom

/-- Boolean helper: a `false` computation refutes the corresponding `= true` test. -/
lemma notEqTrue {b : Bool} (h : b = false) : ¬ b = true := by
  simp [h]

/-- Head disagreement refutes equality of two nonempty character lists. -/
lemma cons_ne_of_head (c d : Char) (cs ds : List Char) (h : ¬ c = d) :
    ¬ (c :: cs = d :: ds) := by
  intro he
  injection he with h1 h2
  exact h h1

/-- A successful `startsWithL` test exhibits the input as pattern plus remainder. -/
lemma startsWithL_exists {l p : List Char} (h : startsWithL l p = true) :
    ∃ t, l = p ++ t := by
  induction p generalizing l with
  | nil => exact ⟨l, rfl⟩
  | cons q ps ih =>
    cases l with
    | nil => simp [startsWithL, swGo] at h
    | cons c cs =>
      have h' : (c == q && swGo ps cs) = true := h
      rw [Bool.and_eq_true, beq_iff_eq] at h'
      obtain ⟨rfl, h2⟩ := h'
      obtain ⟨t, rfl⟩ := ih (l := cs) h2
      exact ⟨t, rfl⟩

/-- Reduction of the interpreter on a line starting with `setRange`. -/
lemma psiSetRange (t : List Char) (cal : ℚ) (s : SatState) :
    processSerialInput ("setRange".toList ++ t) cal s =
      (if parsedRangeMin ("setRange".toList ++ t) > 0 ∧
          parsedRangeMax ("setRange".toList ++ t) > parsedRangeMin ("setRange".toList ++ t) then
        ({ s with frequencyMin := parsedRangeMin ("setRange".toList ++ t),
                  frequencyMax := parsedRangeMax ("setRange".toList ++ t) },
         [Emit.serial Msg.infoFreqRangeUpdated])
      else
        (s, [Emit.serial Msg.errInvalidRange])) := by
  unfold processSerialInput
  rw [if_pos (show startsWithL ("setRange".toList ++ t) ("setRange".toList) = true from rfl)]

/-- Reduction of the interpreter on a line starting with `setGain`. -/
lemma psiSetGain (t : List Char) (cal : ℚ) (s : SatState) :
    processSerialInput ("setGain".toList ++ t) cal s =
      setGain (parsedGain ("setGain".toList ++ t)) s := by
  unfold processSerialInput
  rw [if_neg (notEqTrue (show startsWithL ("setGain".toList ++ t) ("setRange".toList) = false from rfl)),
      if_pos (show startsWithL ("setGain".toList ++ t) ("setGain".toList) = true from rfl)]

/-- Reduction of the interpreter on a line starting with `display`. -/
lemma psiDisplay (t : List Char) (cal : ℚ) (s : SatState) :
    processSerialInput ("display".toList ++ t) cal s =
      (if parsedDisplayIndex ("display".toList ++ t) ≥ 0 ∧
          parsedDisplayIndex ("display".toList ++ t) < numDisplays then
        ({ s with autoCycle := false,
                  currentDisplay := parsedDisplayIndex ("display".toList ++ t) },
         [Emit.serial (Msg.infoDisplayUpdated (parsedDisplayIndex ("display".toList ++ t)))])
      else
        (s, [Emit.serial Msg.errInvalidDisplayIndex])) := by
  unfold processSerialInput
  rw [if_neg (notEqTrue (show startsWithL ("display".toList ++ t) ("setRange".toList) = false from rfl)),
      if_neg (notEqTrue (show startsWithL ("display".toList ++ t) ("setGain".toList) = false from rfl)),
      if_neg (show ¬ ("display".toList ++ t = "toggleLCD".toList) from
        cons_ne_of_head 'd' 't' _ _ (by decide)),
      if_neg (show ¬ ("display".toList ++ t = "toggleLowpass".toList) from
        cons_ne_of_head 'd' 't' _ _ (by decide)),
      if_neg (show ¬ ("display".toList ++ t = "toggleTone".toList) from
        cons_ne_of_head 'd' 't' _ _ (by decide)),
      if_neg (show ¬ ("display".toList ++ t = "calibrate".toList) from
        cons_ne_of_head 'd' 'c' _ _ (by decide)),
      if_neg (show ¬ ("display".toList ++ t = "autoCycle".toList) from
        cons_ne_of_head 'd' 'a' _ _ (by decide)),
      if_pos (show startsWithL ("display".toList ++ t) ("display".toList) = true from rfl)]

/-- Reduction of the acquisition phase on a failed converter read. -/
lemma acquireFail (r : Int) (now : ℕ) (s : SatState) (h : r < 0) :
    acquirePhase r now s =
      ({ s with adcValue := r },
       Emit.serial Msg.errFailedReadADC ::
         (if s.lcdEnabled then [Emit.lcd Msg.errADCRead] else [])) := by
  unfold acquirePhase
  rw [if_neg (show ¬ (r ≥ 0) from by omega)]

end Satcom

namespace Satcom

/-- One filter step writes the constant sample at the current index. -/
lemma lpStep_fst (v : Int) (st : (Fin 10 → Int) × Fin 10) :
    (lpStep v st).1 = Function.update st.1 st.2 v := rfl

/-- One filter step advances the index by one (modulo 10). -/
lemma lpStep_snd (v : Int) (st : (Fin 10 → Int) × Fin 10) :
    (lpStep v st).2 = st.2 + 1 := rfl

/-- Unfolding one more cycle at the end of a run. -/
lemma lpRun_succ (v : Int) (n : ℕ) (st : (Fin 10 → Int) × Fin 10) :
    lpRun v (n + 1) st = lpStep v (lpRun v n st) :=
  Function.iterate_succ_apply' (lpStep v) n st

/-- Unfolding one more cycle at the start of a run. -/
lemma lpRun_succ_shift (v : Int) (n : ℕ) (st : (Fin 10 → Int) × Fin 10) :
    lpRun v (n + 1) st = lpRun v n (lpStep v st) :=
  Function.iterate_succ_apply (lpStep v) n st

/-- After `n` cycles the ring-buffer index has advanced by `n` modulo 10. -/
lemma lpRun_idx (v : Int) (n : ℕ) (st : (Fin 10 → Int) × Fin 10) :
    (lpRun v n st).2 = st.2 + (n : Fin 10) := by
  induction n with
  | zero => simp [lpRun]
  | succ k ih =>
    rw [lpRun_succ, lpStep_snd, ih]
    push_cast
    ring

/-- A slot already holding the constant sample keeps it through any further run. -/
lemma lpRun_preserve (v : Int) (m : ℕ) (st : (Fin 10 → Int) × Fin 10) (j : Fin 10)
    (h : st.1 j = v) : (lpRun v m st).1 j = v := by
  induction m generalizing st with
  | zero => simpa [lpRun] using h
  | succ k ih =>
    rw [lpRun_succ_shift]
    apply ih
    rw [lpStep_fst, Function.update_apply]
    split
    · rfl
    · exact h

/-- The `(k+1)`-th cycle of a run writes the constant sample into slot
`st.2 + k`. -/
lemma lpRun_hit (v : Int) (k : ℕ) (st : (Fin 10 → Int) × Fin 10) :
    (lpRun v (k + 1) st).1 (st.2 + (k : Fin 10)) = v := by
  rw [lpRun_succ, lpStep_fst, lpRun_idx, Function.update_apply, if_pos rfl]

/-- Any slot whose first write has happened holds the constant sample. -/
lemma lpRun_all (v : Int) (n : ℕ) (st : (Fin 10 → Int) × Fin 10) (j : Fin 10)
    (hk : (j - st.2).val + 1 ≤ n) : (lpRun v n st).1 j = v := by
  obtain ⟨m, rfl⟩ : ∃ m, n = ((j - st.2).val + 1) + m :=
    ⟨n - ((j - st.2).val + 1), by omega⟩
  rw [add_comm ((j - st.2).val + 1) m, lpRun, Function.iterate_add_apply]
  have hbase : (lpRun v ((j - st.2).val + 1) st).1 j = v := by
    have hh := lpRun_hit v ((j - st.2).val) st
    rwa [Fin.cast_val_eq_self, add_comm st.2 (j - st.2), sub_add_cancel] at hh
  exact lpRun_preserve v m (lpRun v ((j - st.2).val + 1) st) j hbase

end Satcom

namespace Satcom

/-- A remainder with no parseable number makes `atolL` return 0. -/
lemma atolL_no_number (l : List Char) (h : parsesAsNumberB l = false) : atolL l = 0 := by
  cases hl : l.dropWhile isSpaceC with
  | nil => simp [atolL, hl]
  | cons c r =>
    by_cases hc : c = '-'
    · subst hc
      cases r with
      | nil => simp [atolL, hl, digitsAcc]
      | cons d r2 =>
        have hd : d.isDigit = false := by simpa [parsesAsNumberB, hl] using h
        simp [atolL, hl, digitsAcc, hd]
    · by_cases hc2 : c = '+'
      · subst hc2
        cases r with
        | nil => simp [atolL, hl, hc, digitsAcc]
        | cons d r2 =>
          have hd : d.isDigit = false := by simpa [parsesAsNumberB, hl, hc] using h
          simp [atolL, hl, hc, digitsAcc, hd]
      · have hd : c.isDigit = false := by simpa [parsesAsNumberB, hl, hc, hc2] using h
        simp [atolL, hl, hc, hc2, digitsAcc, hd]

/-- C1: the spec says the per-cycle voltage is
`(sample / 255.0) * 3.3 * CalibrationScale * GainFactor`; the sketch computes
`((adcValue / 255.0) * 3.3) * scaleFactor` and never multiplies by
`gainFactor`, contradicting its own header comment that `setGain` sets "the
software-based gain factor for voltage measurements". At sample 255,
CalibrationScale 1 and GainFactor 2 the cycle stores voltage 33/10 while the
spec formula yields 33/5. -/
theorem voltage_formula_omits_gain :
    (acquirePhase 255 0 { initState with gainFactor := 2 }).1.voltage = 33 / 10 ∧
    specVoltageFormula 255 1 2 = 33 / 5 ∧
    ((33 : ℚ) / 10) ≠ 33 / 5 := by
  refine ⟨?_, ?_, by norm_num⟩
  · rw [show (acquirePhase 255 0 { initState with gainFactor := 2 }).1.voltage =
        computeVoltage 255 1 from rfl]
    norm_num [computeVoltage]
  · norm_num [specVoltageFormula]

/-- C2: the spec says calibration sets
`CalibrationScale = referenceVoltage_mV / ((lastSample/255.0) * 3300)`; the
sketch divides by `(adcValue / 255.0) * 3.3` (volts, not millivolts) although
its own prompt asks for the reference "in mV". With reference 3300 mV and last
sample 255 the sketch stores 1000 while the spec formula yields 1. -/
theorem calibration_divides_by_volts_not_millivolts :
    (processSerialInput ("calibrate".toList) 3300 { initState with adcValue := 255 }).1.scaleFactor
      = 1000 ∧
    specCalibrationFormula 3300 255 = 1 ∧
    ((1000 : ℚ) ≠ 1) := by
  refine ⟨?_, by norm_num [specCalibrationFormula], by norm_num⟩
  rw [show (processSerialInput ("calibrate".toList) 3300
      { initState with adcValue := 255 }).1.scaleFactor =
      (3300 : ℚ) / ((((255 : Int) : ℚ) / 255) * (33 / 10)) from rfl]
  norm_num

/-- C3 counterexample: with the stored sample at 100, a failed read (sentinel
-1) overwrites `adcValue` with -1 instead of keeping 100, refuting the claim
that the prior Sample is not overwritten on failure. -/
theorem sample_retention_on_failure_cex :
    (acquirePhase (-1) 0 { initState with adcValue := 100 }).1.adcValue = -1 ∧
    ((-1 : Int) ≠ 100) := by
  exact ⟨rfl, by decide⟩

/-- C3 (amended): when the converter read fails, the stored Sample is
overwritten with the failure sentinel; every other piece of state is left
unchanged and the downstream stages (smoothing, voltage, frequency, tone,
normal display, telemetry) are skipped: the cycle emits only the serial error
line and, when the LCD is enabled, the LCD error message. -/
theorem read_failure_overwrites_sample_and_skips (r : Int) (now : ℕ) (s : SatState)
    (h : r < 0) :
    (acquirePhase r now s).1.adcValue = r ∧
    (acquirePhase r now s).1.adcHistory = s.adcHistory ∧
    (acquirePhase r now s).1.historyIndex = s.historyIndex ∧
    (acquirePhase r now s).1.voltage = s.voltage ∧
    (acquirePhase r now s).1.voltage_mV = s.voltage_mV ∧
    (acquirePhase r now s).1.frequency = s.frequency ∧
    (acquirePhase r now s).1.currentDisplay = s.currentDisplay ∧
    (acquirePhase r now s).1.scaleFactor = s.scaleFactor ∧
    (acquirePhase r now s).1.gainFactor = s.gainFactor ∧
    (acquirePhase r now s).2 =
      Emit.serial Msg.errFailedReadADC ::
        (if s.lcdEnabled then [Emit.lcd Msg.errADCRead] else []) := by
  rw [acquireFail r now s h]
  exact ⟨rfl, rfl, rfl, rfl, rfl, rfl, rfl, rfl, rfl, rfl⟩

/-- C3 witness: the amended statement instantiated at sentinel -1 from the
initial state. -/
theorem read_failure_overwrites_sample_and_skips_witness :
    ((-1 : Int) < 0) ∧
    (acquirePhase (-1) 0 initState).1.adcValue = -1 ∧
    (acquirePhase (-1) 0 initState).1.voltage = initState.voltage := by
  have hh := read_failure_overwrites_sample_and_skips (-1) 0 initState (by decide)
  exact ⟨by decide, hh.1, hh.2.2.2.1⟩

/-- C4: a `setRange` command with parsed arguments `a,b` leaves the frequency
range unchanged and reports an error when `a ≤ 0` or `b ≤ a`, and sets the
range to exactly `(a, b)` when `0 < a < b`. -/
theorem setRange_validation (input : List Char) (cal : ℚ) (s : SatState)
    (h : startsWithL input ("setRange".toList) = true) :
    ((parsedRangeMin input ≤ 0 ∨ parsedRangeMax input ≤ parsedRangeMin input) →
      (processSerialInput input cal s).1.frequencyMin = s.frequencyMin ∧
      (processSerialInput input cal s).1.frequencyMax = s.frequencyMax ∧
      Emit.serial Msg.errInvalidRange ∈ (processSerialInput input cal s).2) ∧
    (0 < parsedRangeMin input → parsedRangeMin input < parsedRangeMax input →
      (processSerialInput input cal s).1.frequencyMin = parsedRangeMin input ∧
      (processSerialInput input cal s).1.frequencyMax = parsedRangeMax input) := by
  obtain ⟨t, rfl⟩ := startsWithL_exists h
  rw [psiSetRange]
  constructor
  · intro hab
    rw [if_neg (by omega :
      ¬ (parsedRangeMin ("setRange".toList ++ t) > 0 ∧
         parsedRangeMax ("setRange".toList ++ t) > parsedRangeMin ("setRange".toList ++ t)))]
    exact ⟨rfl, rfl, by simp⟩
  · intro h1 h2
    rw [if_pos ⟨h1, h2⟩]
    exact ⟨rfl, rfl⟩

/-- C4 witness: `setRange 100,200` from the initial state sets the range to
exactly (100, 200). -/
theorem setRange_validation_witness :
    startsWithL ("setRange 100,200".toList) ("setRange".toList) = true ∧
    (processSerialInput ("setRange 100,200".toList) 0 initState).1.frequencyMin = 100 ∧
    (processSerialInput ("setRange 100,200".toList) 0 initState).1.frequencyMax = 200 := by
  have hh := (setRange_validation ("setRange 100,200".toList) 0 initState (by decide)).2
    (by decide) (by decide)
  exact ⟨by decide, hh.1.trans (by decide), hh.2.trans (by decide)⟩

/-- C5: a `setGain` command with parsed argument `g` leaves the gain factor
unchanged and reports an error when `g ≤ 0`, and sets it to exactly `g` when
`g > 0`. -/
theorem setGain_validation (input : List Char) (cal : ℚ) (s : SatState)
    (h : startsWithL input ("setGain".toList) = true) :
    (parsedGain input ≤ 0 →
      (processSerialInput input cal s).1.gainFactor = s.gainFactor ∧
      Emit.lcd Msg.errInvalidGain ∈ (processSerialInput input cal s).2) ∧
    (0 < parsedGain input →
      (processSerialInput input cal s).1.gainFactor = parsedGain input) := by
  obtain ⟨t, rfl⟩ := startsWithL_exists h
  rw [psiSetGain]
  unfold setGain
  constructor
  · intro hle
    rw [if_neg (not_lt.mpr hle)]
    exact ⟨rfl, by simp⟩
  · intro hpos
    rw [if_pos hpos]

/-- C5 witness: `setGain -1` from the initial state leaves the gain factor at
1 and reports the error on the LCD. -/
theorem setGain_validation_witness :
    startsWithL ("setGain -1".toList) ("setGain".toList) = true ∧
    (processSerialInput ("setGain -1".toList) 0 initState).1.gainFactor = 1 ∧
    Emit.lcd Msg.errInvalidGain ∈ (processSerialInput ("setGain -1".toList) 0 initState).2 := by
  have hneg : parsedGain ("setGain -1".toList) ≤ 0 := by
    rw [show parsedGain ("setGain -1".toList) =
        (-1 : ℚ) * (((1 : ℕ) : ℚ) + ((0 : ℕ) : ℚ) / (10 : ℚ) ^ (0 : ℕ)) *
          (10 : ℚ) ^ ((0 : Int)).toNat from rfl]
    norm_num
  have hh := (setGain_validation ("setGain -1".toList) 0 initState (by decide)).1 hneg
  exact ⟨by decide, hh.1, hh.2⟩

end Satcom

namespace Satcom

/-- C6: a `display` command with parsed index `i` in `[0, 6)` sets the current
display to `i` and disables auto-cycling; for `i` outside `[0, 6)` it leaves
both unchanged and reports an error. -/
theorem display_command_validation (input : List Char) (cal : ℚ) (s : SatState)
    (h : startsWithL input ("display".toList) = true) :
    ((0 ≤ parsedDisplayIndex input ∧ parsedDisplayIndex input < 6) →
      (processSerialInput input cal s).1.currentDisplay = parsedDisplayIndex input ∧
      (processSerialInput input cal s).1.autoCycle = false ∧
      Emit.serial (Msg.infoDisplayUpdated (parsedDisplayIndex input)) ∈
        (processSerialInput input cal s).2) ∧
    (¬ (0 ≤ parsedDisplayIndex input ∧ parsedDisplayIndex input < 6) →
      (processSerialInput input cal s).1.currentDisplay = s.currentDisplay ∧
      (processSerialInput input cal s).1.autoCycle = s.autoCycle ∧
      Emit.serial Msg.errInvalidDisplayIndex ∈ (processSerialInput input cal s).2) := by
  obtain ⟨t, rfl⟩ := startsWithL_exists h
  rw [psiDisplay]
  constructor
  · rintro ⟨h1, h2⟩
    rw [if_pos (show parsedDisplayIndex ("display".toList ++ t) ≥ 0 ∧
        parsedDisplayIndex ("display".toList ++ t) < numDisplays from ⟨h1, h2⟩)]
    exact ⟨rfl, rfl, by simp⟩
  · intro hno
    rw [if_neg (show ¬ (parsedDisplayIndex ("display".toList ++ t) ≥ 0 ∧
        parsedDisplayIndex ("display".toList ++ t) < numDisplays) from
        fun hc => hno ⟨hc.1, hc.2⟩)]
    exact ⟨rfl, rfl, by simp⟩

/-- C6 witness: `display 3` from the initial state selects view 3 and turns
auto-cycling off; `display 9` is rejected with an error. -/
theorem display_command_validation_witness :
    (startsWithL ("display 3".toList) ("display".toList) = true ∧
      (0 ≤ parsedDisplayIndex ("display 3".toList) ∧
        parsedDisplayIndex ("display 3".toList) < 6) ∧
      (processSerialInput ("display 3".toList) 0 initState).1.currentDisplay = 3 ∧
      (processSerialInput ("display 3".toList) 0 initState).1.autoCycle = false) ∧
    (startsWithL ("display 9".toList) ("display".toList) = true ∧
      (processSerialInput ("display 9".toList) 0 initState).1.currentDisplay = 0 ∧
      Emit.serial Msg.errInvalidDisplayIndex ∈
        (processSerialInput ("display 9".toList) 0 initState).2) := by
  constructor
  · have hh := (display_command_validation ("display 3".toList) 0 initState (by decide)).1
      (by decide)
    exact ⟨by decide, by decide, hh.1.trans (by decide), hh.2.1⟩
  · have hh := (display_command_validation ("display 9".toList) 0 initState (by decide)).2
      (by decide)
    exact ⟨by decide, hh.1.trans (show initState.currentDisplay = 0 from rfl), hh.2.2⟩

/-- C7: for a valid range `0 < mn < mx` the Arduino linear mapping used for
the frequency sends the extreme samples to the range ends exactly:
`map 0 = mn` and `map 255 = mx`. -/
theorem mapFrequency_endpoints (mn mx : Int) (h1 : 0 < mn) (h2 : mn < mx) :
    mapArduino 0 0 255 mn mx = mn ∧ mapArduino 255 0 255 mn mx = mx := by
  constructor
  · unfold mapArduino
    rw [show ((0 : Int) - 0) * (mx - mn) = 0 from by ring, Int.zero_tdiv, zero_add]
  · unfold mapArduino
    rw [show ((255 : Int) - 0) * (mx - mn) = 255 * (mx - mn) from by ring,
        show ((255 : Int) - 0) = 255 from by norm_num,
        Int.mul_tdiv_cancel_left _ (by norm_num : (255 : Int) ≠ 0)]
    ring

/-- C7 witness: the endpoints of the scenario range (100, 200). -/
theorem mapFrequency_endpoints_witness :
    ((0 : Int) < 100 ∧ (100 : Int) < 200) ∧
    (mapArduino 0 0 255 100 200 = 100 ∧ mapArduino 255 0 255 100 200 = 200) :=
  ⟨by decide, mapFrequency_endpoints 100 200 (by decide) (by decide)⟩

/-- C8: after the low-pass filter has been fed the same sample `v` for at
least 10 consecutive cycles (here: 9 earlier cycles followed by the current
one), every ring-buffer slot holds `v` and the filter returns exactly `v`. -/
theorem smooth_constant_stream (v : Int) (hist : Fin 10 → Int) (idx : Fin 10) (n : ℕ)
    (h0 : 0 ≤ v) (h255 : v ≤ 255) (hn : 9 ≤ n) :
    (applyLowPassFilter v (lpRun v n (hist, idx)).1 (lpRun v n (hist, idx)).2).1 = v := by
  have hall : ∀ j : Fin 10,
      Function.update (lpRun v n (hist, idx)).1 (lpRun v n (hist, idx)).2 v j = v := by
    intro j
    rw [Function.update_apply]
    split
    · rfl
    · rename_i hne
      apply lpRun_all
      by_cases hc : (j - (hist, idx).2).val + 1 ≤ n
      · exact hc
      · exfalso
        apply hne
        have hv : (j - (hist, idx).2).val = n := by
          have := (j - (hist, idx).2).isLt
          omega
        rw [lpRun_idx, ← hv, Fin.cast_val_eq_self,
            add_comm ((hist, idx).2) (j - (hist, idx).2), sub_add_cancel]
  show ((∑ j, Function.update (lpRun v n (hist, idx)).1 (lpRun v n (hist, idx)).2 v j : Int) : ℚ)
      / 10 = v
  rw [Finset.sum_congr rfl (fun j _ => hall j), Finset.sum_const, Finset.card_univ,
      Fintype.card_fin, nsmul_eq_mul]
  push_cast
  rw [mul_comm, mul_div_assoc]
  norm_num

/-- C8 witness: sample 7 into an all-zero history at index 0; on the 10th
cycle the filter returns exactly 7. -/
theorem smooth_constant_stream_witness :
    ((0 : Int) ≤ 7 ∧ (7 : Int) ≤ 255 ∧ (9 : ℕ) ≤ 9) ∧
    (applyLowPassFilter 7 (lpRun 7 9 (fun _ => 0, 0)).1 (lpRun 7 9 (fun _ => 0, 0)).2).1 = 7 :=
  ⟨by refine ⟨by decide, by decide, by decide⟩,
   smooth_constant_stream 7 (fun _ => 0) 0 9 (by decide) (by decide) (by decide)⟩

/-- C9: on a failed converter read (negative sentinel) no telemetry line is
emitted that cycle, the LCD error view is shown whenever the LCD is enabled,
and the cycle still produces a successor state (the failure is never fatal). -/
theorem read_failure_no_telemetry_error_view (r : Int) (now : ℕ) (s : SatState)
    (h : r < 0) :
    (∀ a vv f, Emit.plotter a vv f ∉ (acquirePhase r now s).2) ∧
    (s.lcdEnabled = true → Emit.lcd Msg.errADCRead ∈ (acquirePhase r now s).2) := by
  rw [acquireFail r now s h]
  constructor
  · intro a vv f
    cases hl : s.lcdEnabled <;> simp [hl]
  · intro hl
    simp [hl]

/-- C9 witness: sentinel -1 from the initial state (LCD enabled): no telemetry,
LCD error view shown. -/
theorem read_failure_no_telemetry_error_view_witness :
    ((-1 : Int) < 0 ∧ initState.lcdEnabled = true) ∧
    (∀ a vv f, Emit.plotter a vv f ∉ (acquirePhase (-1) 0 initState).2) ∧
    Emit.lcd Msg.errADCRead ∈ (acquirePhase (-1) 0 initState).2 := by
  have hh := read_failure_no_telemetry_error_view (-1) 0 initState (by decide)
  exact ⟨⟨by decide, rfl⟩, hh.1, hh.2 rfl⟩

/-- C10: an input line starting with `display` whose remainder contains no
parseable number is not rejected: the parsed index defaults to 0, so the
interpreter selects view 0, disables auto-cycling, and reports neither an
unknown command nor an invalid index. -/
theorem display_nonnumeric_selects_view_zero (input : List Char) (cal : ℚ) (s : SatState)
    (h1 : startsWithL input ("display".toList) = true)
    (h2 : parsesAsNumberB (substr1 input 7) = false) :
    (processSerialInput input cal s).1.currentDisplay = 0 ∧
    (processSerialInput input cal s).1.autoCycle = false ∧
    Emit.serial (Msg.infoDisplayUpdated 0) ∈ (processSerialInput input cal s).2 ∧
    Emit.serial Msg.errUnknownCommand ∉ (processSerialInput input cal s).2 ∧
    Emit.serial Msg.errInvalidDisplayIndex ∉ (processSerialInput input cal s).2 := by
  have hi : parsedDisplayIndex input = 0 := atolL_no_number (substr1 input 7) h2
  obtain ⟨t, rfl⟩ := startsWithL_exists h1
  rw [psiDisplay, hi]
  rw [if_pos (show (0 : Int) ≥ 0 ∧ (0 : Int) < numDisplays from by decide)]
  exact ⟨rfl, rfl, by simp, by simp, by simp⟩

/-- C10 witness: `display foo` selects view 0 and disables auto-cycling rather
than reporting an error. -/
theorem display_nonnumeric_selects_view_zero_witness :
    (startsWithL ("display foo".toList) ("display".toList) = true ∧
      parsesAsNumberB (substr1 ("display foo".toList) 7) = false) ∧
    (processSerialInput ("display foo".toList) 0 initState).1.currentDisplay = 0 ∧
    (processSerialInput ("display foo".toList) 0 initState).1.autoCycle = false ∧
    Emit.serial Msg.errUnknownCommand ∉ (processSerialInput ("display foo".toList) 0 initState).2 := by
  have hh := display_nonnumeric_selects_view_zero ("display foo".toList) 0 initState
    (by decide) (by decide)
  exact ⟨⟨by decide, by decide⟩, hh.1, hh.2.1, hh.2.2.2.1⟩

end Satcom
